import Mathlib

/-!
Verification development for the crypto-scanner repository.

The repository consists of polling scripts that compute technical
indicators (RSI, Bollinger bands, Supertrend, Heikin-Ashi, CCI) over OHLC
candle series and drive a per-pair watchlist state machine.  This file is a
shallow embedding of the indicator recurrences and the per-pair state
transitions, translated from the Python sources:

* `src/Indicators.py` (calculate_rsi, supertrend),
* `src/RSI_Buy_Sell.py` (calculate_rsi, fetch_coin_data),
* `src/BB_RSI.py` (calculate_rsi, heikin_ashi, main loop body),
* `src/BollingerBandBuySell.py` (heikin_ashi, bollinger, calculate_trade_levels, process),
* `src/ReversalBuySell.py` (calculate_trade_levels, calculate_heikin_ashi,
  calculate_bollinger, rma, calculate_supertrend, fetch_and_prepare, process_pair),
* `src/SupertrendMomentum.py` (rma, to_heikin_ashi, calculate_supertrend),
* `src/EMACluster.py` (calculate_trade_levels),
* `src/CCISetup.py` (fetch_and_check), `src/CCI_Calculater.py` (calculate_cci).

Numbers are modelled as exact rationals.  The scripts run on IEEE binary64
via pandas; for the places where the float semantics is essential (division
by zero producing inf or NaN, comparisons against NaN) values are wrapped in
the type `FVal` below, which mirrors binary64 behaviour for exactly the
operations the scripts perform (no overflow is modelled: the magnitudes
involved never approach the float range).
-/

/-- A binary64-style value: a finite rational, plus or minus infinity, or
NaN.  Only the operations used by the scripts are defined on it. -/
inductive FVal where
  | fin (q : ℚ)
  | inf
  | ninf
  | nan
deriving DecidableEq

namespace FVal

/-- Float division of two finite values, as pandas performs it:
`x / 0` is `+inf` for `x > 0`, `-inf` for `x < 0`, and NaN for `0 / 0`. -/
def fdiv (a b : ℚ) : FVal :=
  if b = 0 then (if a = 0 then nan else if 0 < a then inf else ninf)
  else fin (a / b)

/-- `a + v` for a finite constant `a`. -/
def addQ (a : ℚ) : FVal → FVal
  | fin q => fin (a + q)
  | inf => inf
  | ninf => ninf
  | nan => nan

/-- `a - v` for a finite constant `a`. -/
def subQ (a : ℚ) : FVal → FVal
  | fin q => fin (a - q)
  | inf => ninf
  | ninf => inf
  | nan => nan

/-- `a / v` for a finite constant `a`: a finite value divided by an
infinity is `0`, division by NaN is NaN. -/
def divQ (a : ℚ) : FVal → FVal
  | fin q => fdiv a q
  | inf => fin 0
  | ninf => fin 0
  | nan => nan

/-- `v > a`: any comparison against NaN is false. -/
def gtQ : FVal → ℚ → Bool
  | fin q, a => decide (a < q)
  | inf, _ => true
  | ninf, _ => false
  | nan, _ => false

/-- `v < a`: any comparison against NaN is false. -/
def ltQ : FVal → ℚ → Bool
  | fin q, a => decide (q < a)
  | inf, _ => false
  | ninf, _ => true
  | nan, _ => false

/-- `v <= a`: any comparison against NaN is false. -/
def leQ : FVal → ℚ → Bool
  | fin q, a => decide (q ≤ a)
  | inf, _ => false
  | ninf, _ => true
  | nan, _ => false

/-- `v >= a`: any comparison against NaN is false. -/
def geQ : FVal → ℚ → Bool
  | fin q, a => decide (a ≤ q)
  | inf, _ => true
  | ninf, _ => false
  | nan, _ => false

end FVal

/-!
## RSI (`calculate_rsi` of Indicators.py / BB_RSI.py / RSI_Buy_Sell.py)

```python
delta = close.diff()
gain = delta.clip(lower=0)
loss = -delta.clip(upper=0)
avg_gain = gain.ewm(alpha=1/period, min_periods=period, adjust=False).mean()
avg_loss = loss.ewm(alpha=1/period, min_periods=period, adjust=False).mean()
rs = avg_gain / avg_loss
rsi = 100 - (100 / (1 + rs))
```

`diff()` is NaN at index 0, so the first observation seen by `ewm` is at
index 1; with `adjust=False` the smoother seeds on that first observation
and then applies `y = (1-alpha) * y_prev + alpha * x`.  With
`min_periods=period` the output is NaN until `period` observations have
been consumed, i.e. until index `period`.
-/

/-- `close.diff()` at index `i` (meaningful for `i ≥ 1`; index 0 is NaN in
pandas and is never consumed downstream). -/
def deltaSeq (c : ℕ → ℚ) (i : ℕ) : ℚ := c i - c (i - 1)

/-- `delta.clip(lower=0)` at index `i`. -/
def gainSeq (c : ℕ → ℚ) (i : ℕ) : ℚ := max (deltaSeq c i) 0

/-- `-delta.clip(upper=0)` at index `i`. -/
def lossSeq (c : ℕ → ℚ) (i : ℕ) : ℚ := max (-deltaSeq c i) 0

/-- `gain.ewm(alpha=1/period, adjust=False).mean()`: seeded at index 1 (the
first non-NaN observation), then `y = (1-alpha) y_prev + alpha x`.  The
value at index 0 is NaN in pandas and never read; it is mapped to 0 here. -/
def avgGain (c : ℕ → ℚ) (p : ℕ) : ℕ → ℚ
  | 0 => 0
  | 1 => gainSeq c 1
  | (i + 2) => (1 - 1 / (p : ℚ)) * avgGain c p (i + 1) + (1 / (p : ℚ)) * gainSeq c (i + 2)

/-- `loss.ewm(alpha=1/period, adjust=False).mean()`, as `avgGain`. -/
def avgLoss (c : ℕ → ℚ) (p : ℕ) : ℕ → ℚ
  | 0 => 0
  | 1 => lossSeq c 1
  | (i + 2) => (1 - 1 / (p : ℚ)) * avgLoss c p (i + 1) + (1 / (p : ℚ)) * lossSeq c (i + 2)

/-- `calculate_rsi` evaluated at index `i`: NaN before the `min_periods`
warm-up (fewer than `period` observations), otherwise
`100 - 100/(1 + avg_gain/avg_loss)` in float semantics. -/
def calculate_rsi (c : ℕ → ℚ) (p i : ℕ) : FVal :=
  if i < p then FVal.nan
  else FVal.subQ 100 (FVal.divQ 100 (FVal.addQ 1 (FVal.fdiv (avgGain c p i) (avgLoss c p i))))

theorem avgGain_nonneg (c : ℕ → ℚ) (p : ℕ) : ∀ i, 0 ≤ avgGain c p i := by
  have halpha : (0 : ℚ) ≤ 1 / (p : ℚ) := by positivity
  have halpha1 : 1 / (p : ℚ) ≤ 1 := by
    rcases Nat.eq_zero_or_pos p with hp | hp
    · simp [hp]
    · rw [div_le_one (by exact_mod_cast hp)]
      exact_mod_cast hp
  intro i
  induction i with
  | zero => simp [avgGain]
  | succ j ih =>
    cases j with
    | zero => simp [avgGain, gainSeq, le_max_iff]
    | succ k =>
      have hg : 0 ≤ gainSeq c (k + 2) := by simp [gainSeq, le_max_iff]
      have h1 := mul_nonneg (by linarith : (0:ℚ) ≤ 1 - 1 / (p : ℚ)) ih
      have h2 := mul_nonneg halpha hg
      show 0 ≤ (1 - 1 / (p : ℚ)) * avgGain c p (k + 1) + (1 / (p : ℚ)) * gainSeq c (k + 2)
      linarith

theorem avgLoss_nonneg (c : ℕ → ℚ) (p : ℕ) : ∀ i, 0 ≤ avgLoss c p i := by
  have halpha : (0 : ℚ) ≤ 1 / (p : ℚ) := by positivity
  have halpha1 : 1 / (p : ℚ) ≤ 1 := by
    rcases Nat.eq_zero_or_pos p with hp | hp
    · simp [hp]
    · rw [div_le_one (by exact_mod_cast hp)]
      exact_mod_cast hp
  intro i
  induction i with
  | zero => simp [avgLoss]
  | succ j ih =>
    cases j with
    | zero => simp [avgLoss, lossSeq, le_max_iff]
    | succ k =>
      have hg : 0 ≤ lossSeq c (k + 2) := by simp [lossSeq, le_max_iff]
      have h1 := mul_nonneg (by linarith : (0:ℚ) ≤ 1 - 1 / (p : ℚ)) ih
      have h2 := mul_nonneg halpha hg
      show 0 ≤ (1 - 1 / (p : ℚ)) * avgLoss c p (k + 1) + (1 / (p : ℚ)) * lossSeq c (k + 2)
      linarith

/-!
## Candles and Heikin-Ashi transforms

`Bar` is one OHLC candle (volume never enters the embedded logic).  Two
Heikin-Ashi variants occur in the repository:

* the accumulator form (BollingerBandBuySell.heikin_ashi,
  BB_RSI.heikin_ashi, SupertrendMomentum.to_heikin_ashi):
  `ha_open[0] = (open[0]+close[0])/2`,
  `ha_open[i] = (ha_open[i-1] + ha_close[i-1]) / 2`;
* the vectorized form (ReversalBuySell.calculate_heikin_ashi):
  `HA_open = (open.shift(1) + close.shift(1)) / 2` with the same base case.
-/

/-- One OHLC candle.  `open` is a Lean keyword, hence the field `open_`. -/
structure Bar where
  open_ : ℚ
  high : ℚ
  low : ℚ
  close : ℚ
deriving DecidableEq

/-- `HA_Close[i] = (open + high + low + close)/4` (all variants). -/
def HA_Close (bars : ℕ → Bar) (i : ℕ) : ℚ :=
  ((bars i).open_ + (bars i).high + (bars i).low + (bars i).close) / 4

/-- Accumulator-form `HA_Open` (BollingerBandBuySell / BB_RSI /
SupertrendMomentum). -/
def HA_Open (bars : ℕ → Bar) : ℕ → ℚ
  | 0 => ((bars 0).open_ + (bars 0).close) / 2
  | (i + 1) => (HA_Open bars i + HA_Close bars i) / 2

/-- `HA_High = max(high, HA_Open, HA_Close)`. -/
def HA_High (bars : ℕ → Bar) (i : ℕ) : ℚ :=
  max (max (HA_Open bars i) (HA_Close bars i)) (bars i).high

/-- `HA_Low = min(low, HA_Open, HA_Close)`. -/
def HA_Low (bars : ℕ → Bar) (i : ℕ) : ℚ :=
  min (min (HA_Open bars i) (HA_Close bars i)) (bars i).low

/-- `HA_Color`: RED iff `HA_Close < HA_Open` (BollingerBandBuySell assigns
GREEN when `HA_Close >= HA_Open`). -/
def HA_isRed (bars : ℕ → Bar) (i : ℕ) : Bool :=
  decide (HA_Close bars i < HA_Open bars i)

/-- Vectorized `HA_open` of ReversalBuySell.calculate_heikin_ashi:
`(open.shift(1) + close.shift(1))/2`, base case `(open[0]+close[0])/2`.
Note it averages the *raw* previous open/close, not the previous
Heikin-Ashi open/close. -/
def HA_open_rev (bars : ℕ → Bar) (i : ℕ) : ℚ :=
  if i = 0 then ((bars 0).open_ + (bars 0).close) / 2
  else ((bars (i - 1)).open_ + (bars (i - 1)).close) / 2

/-- `HA_close` of ReversalBuySell (same formula as all variants). -/
def HA_close_rev (bars : ℕ → Bar) (i : ℕ) : ℚ := HA_Close bars i

/-- `HA_high` of ReversalBuySell: `max(HA_open, HA_close, high)`. -/
def HA_high_rev (bars : ℕ → Bar) (i : ℕ) : ℚ :=
  max (max (HA_open_rev bars i) (HA_close_rev bars i)) (bars i).high

/-- `HA_low` of ReversalBuySell: `min(HA_open, HA_close, low)`. -/
def HA_low_rev (bars : ℕ → Bar) (i : ℕ) : ℚ :=
  min (min (HA_open_rev bars i) (HA_close_rev bars i)) (bars i).low

/-!
## Rolling statistics (pandas `rolling(p).mean()` / `.std()`)

The rolling window at index `i` covers indices `i-p+1 .. i`.  Values
before the warm-up (`i < p-1`) are NaN in pandas; the definitions below
use truncated subtraction there, and every theorem reads them only at
indices past warm-up.  `rolling.std()` uses the sample standard deviation
(`ddof=1`); since ℚ has no square root, the square-root routine is passed
in as an arbitrary function `sq` — every property proved about it holds
for each realization. -/

/-- `x.rolling(p).mean()` at index `i`. -/
def rollingMean (p : ℕ) (x : ℕ → ℚ) (i : ℕ) : ℚ :=
  (∑ k in Finset.range p, x (i - k)) / p

/-- The sample variance (`ddof=1`) of the rolling window at index `i`. -/
def rollingVar (p : ℕ) (x : ℕ → ℚ) (i : ℕ) : ℚ :=
  (∑ k in Finset.range p, (x (i - k) - rollingMean p x i) ^ 2) / ((p : ℚ) - 1)

/-- `x.rolling(p).std()` at index `i`, with `sq` the square-root routine. -/
def rollingStd (sq : ℚ → ℚ) (p : ℕ) (x : ℕ → ℚ) (i : ℕ) : ℚ :=
  sq (rollingVar p x i)

/-!
## Supertrend (Indicators.py `supertrend`, SupertrendMomentum.py
`calculate_supertrend`)

True range, ATR, basic bands, and the final-band ratchet:

```python
fu.iloc[i] = upper.iloc[i] if upper.iloc[i] < fu.iloc[i-1]
             or df["close"].iloc[i-1] > fu.iloc[i-1] else fu.iloc[i-1]
fl.iloc[i] = lower.iloc[i] if lower.iloc[i] > fl.iloc[i-1]
             or df["close"].iloc[i-1] < fl.iloc[i-1] else fl.iloc[i-1]
```

Indicators.py smooths TR with `rolling(period).mean()` (a simple moving
average); SupertrendMomentum.py and ReversalBuySell.py smooth it with
`rma = ewm(alpha=1/period, adjust=False).mean()`.  Index 0 of the
recurrences below stands for the first index at which the bands are
defined (Indicators.py starts its loop at `period` with
`Final_UpperBand[period-1]` initialized to `UpperBand[period-1]`;
SupertrendMomentum starts at 1 with `fu = upper.copy()`). -/

/-- True range: `max(high-low, |high-close.shift()|, |low-close.shift()|)`.
At index 0 `close.shift()` is NaN and the pandas row-max skips it, leaving
`high - low`. -/
def trSeq (bars : ℕ → Bar) : ℕ → ℚ
  | 0 => (bars 0).high - (bars 0).low
  | (j + 1) => max ((bars (j + 1)).high - (bars (j + 1)).low)
      (max |(bars (j + 1)).high - (bars j).close| |(bars (j + 1)).low - (bars j).close|)

/-- `rma(series, period) = series.ewm(alpha=1/period, adjust=False).mean()`
(SupertrendMomentum.py / ReversalBuySell.py): seed on the first value, then
`y = (1-alpha) y_prev + alpha x`. -/
def rma (p : ℕ) (x : ℕ → ℚ) : ℕ → ℚ
  | 0 => x 0
  | (i + 1) => (1 - 1 / (p : ℚ)) * rma p x i + (1 / (p : ℚ)) * x (i + 1)

/-- Modelled from the spec: Wilder smoothing, "exponential smoothing with
decay α = 1/period, no reweighting of past terms":
`S(0) = x(0)`; `S(i) = S(i-1) + α (x(i) - S(i-1))`. -/
def wilderSmooth (p : ℕ) (x : ℕ → ℚ) : ℕ → ℚ
  | 0 => x 0
  | (i + 1) => wilderSmooth p x i + (1 / (p : ℚ)) * (x (i + 1) - wilderSmooth p x i)

/-- The ATR of Indicators.py `supertrend`: `df["TR"].rolling(period).mean()`,
a simple moving average of the true range. -/
def ATR_ind (p : ℕ) (bars : ℕ → Bar) (i : ℕ) : ℚ :=
  rollingMean p (trSeq bars) i

/-- `(high + low) / 2`. -/
def hl2 (bars : ℕ → Bar) (i : ℕ) : ℚ := ((bars i).high + (bars i).low) / 2

/-- The final-upper-band ratchet, over a basic-band series `upper` and a
close series `close` (both source loops take these columns as input). -/
def Final_UpperBand (upper close : ℕ → ℚ) : ℕ → ℚ
  | 0 => upper 0
  | (i + 1) =>
    if upper (i + 1) < Final_UpperBand upper close i ∨ close i > Final_UpperBand upper close i
    then upper (i + 1) else Final_UpperBand upper close i

/-- The final-lower-band ratchet. -/
def Final_LowerBand (lower close : ℕ → ℚ) : ℕ → ℚ
  | 0 => lower 0
  | (i + 1) =>
    if lower (i + 1) > Final_LowerBand lower close i ∨ close i < Final_LowerBand lower close i
    then lower (i + 1) else Final_LowerBand lower close i

/-!
## RSI_Buy_Sell.py: `fetch_coin_data` signal evaluation

```python
df['rsi'] = calculate_rsi(df['close'], RSI_PERIOD)   # RSI_PERIOD = 21
last_rsi = df['rsi'].iloc[-1]
coin_state = alerted_coins.get(pair, "neutral")
if last_rsi > RSI_OVERBOUGHT: ...        # 73, buy_signal once per state
elif last_rsi < RSI_OVERSOLD: ...        # 27, sell_signal once per state
else: alerted_coins[pair] = "neutral"
```

Note `iloc[-1]`: the RSI of the *final* bar of the fetched series. -/

/-- The per-pair session state kept in the module-level `alerted_coins`
dict of RSI_Buy_Sell.py. -/
inductive CoinState where
  | neutral
  | overbought
  | oversold
deriving DecidableEq

/-- The signal evaluation of `fetch_coin_data` for one pair: from the
fetched close series (of length `n`) and the pair's session state, produce
`(buy_signal, sell_signal)` and the updated state.  `RSI_PERIOD = 21`,
thresholds 73 / 27; the RSI is read at index `n - 1`, the final
(still-open) bar. -/
def rsiScanStep (closes : ℕ → ℚ) (n : ℕ) (st : CoinState) : Bool × Bool × CoinState :=
  let lastRsi := calculate_rsi closes 21 (n - 1)
  if FVal.gtQ lastRsi 73 then
    if st ≠ CoinState.overbought then (true, false, CoinState.overbought)
    else (false, false, st)
  else if FVal.ltQ lastRsi 27 then
    if st ≠ CoinState.oversold then (false, true, CoinState.oversold)
    else (false, false, st)
  else (false, false, CoinState.neutral)

/-!
## BB_RSI.py: per-pair cycle of the main loop

For one pair and one cycle, with `prev = df.iloc[-2]` fixed:

```python
if pair in buy_watchlist:
    if prev['rsi'] > 50: buy_signals.append(..); buy_watchlist.remove(pair)
if prev['HA_Low'] <= prev['lower']: new_buy_candidates.add(pair)
if pair in sell_watchlist:
    if prev['rsi'] < 50: sell_signals.append(..); sell_watchlist.remove(pair)
if prev['HA_High'] >= prev['upper']: new_sell_candidates.add(pair)
...
buy_watchlist.update(new_buy_candidates)
sell_watchlist.update(new_sell_candidates)
```

The indicator values of the last closed bar are a 5-tuple `RsiSig`; the
per-pair state is (in buy watchlist, in sell watchlist). -/

/-- Indicator values of the last closed bar, as read by BB_RSI's cycle. -/
structure RsiSig where
  haLow : ℚ
  lower : ℚ
  haHigh : ℚ
  upper : ℚ
  rsi : FVal
deriving DecidableEq

/-- One BB_RSI scan cycle for one pair: returns the new
(inBuy, inSell) membership and the `(buy_signal, sell_signal)` alerts. -/
def bbRsiStep (s : Bool × Bool) (b : RsiSig) : (Bool × Bool) × (Bool × Bool) :=
  let buyAlert := s.1 && FVal.gtQ b.rsi 50
  let sellAlert := s.2 && FVal.ltQ b.rsi 50
  let inBuy := (s.1 && !buyAlert) || decide (b.haLow ≤ b.lower)
  let inSell := (s.2 && !sellAlert) || decide (b.upper ≤ b.haHigh)
  ((inBuy, inSell), (buyAlert, sellAlert))

/-- Iterated BB_RSI cycles for one pair, starting from empty watchlists. -/
def bbRsiRun (l : List RsiSig) : Bool × Bool :=
  l.foldl (fun s b => (bbRsiStep s b).1) (false, false)

/-!
## BollingerBandBuySell.py: trade levels and per-pair `process`

`calculate_trade_levels` (CAPITAL_RS = 600, MAX_LOSS_RS = 50,
MAX_ALLOWED_LEVERAGE = 10, RR_LEVELS = [2,3,4]); the `round(..., 4)` /
`round(..., 2)` display rounding of the returned numbers is omitted (it is
a deterministic post-processing of the alert text). -/

/-- BUY or SELL side. -/
inductive Side where
  | buy
  | sell
deriving DecidableEq

/-- The trade dict built by BollingerBandBuySell.calculate_trade_levels. -/
structure BbbsTrade where
  entry : ℚ
  sl : ℚ
  qty : ℤ
  leverage : ℤ
  capital : ℚ
  t2 : ℚ
  t3 : ℚ
  t4 : ℚ
deriving DecidableEq

/-- `calculate_trade_levels` of BollingerBandBuySell.py (also
SupertrendMomentum.py with the same constants): quantity from max loss and
from capital×max-leverage, leverage as the ceiling of position value over
capital, `None` when any check fails. -/
def bbbs_calculate_trade_levels (entry sl : ℚ) (side : Side) : Option BbbsTrade :=
  let risk := |entry - sl|
  if risk ≤ 0 then none
  else
    let qtyRisk : ℤ := ⌊(50 : ℚ) / risk⌋
    if qtyRisk ≤ 0 then none
    else
      let maxPositionValue : ℚ := 600 * 10
      let qtyCapital : ℤ := ⌊maxPositionValue / entry⌋
      let qty := min qtyRisk qtyCapital
      if qty ≤ 0 then none
      else
        let positionValue := entry * (qty : ℚ)
        let leverage : ℤ := ⌈positionValue / 600⌉
        if leverage < 1 ∨ leverage > 10 then none
        else
          let tgt := fun (r : ℚ) => match side with
            | Side.buy => entry + r * risk
            | Side.sell => entry - r * risk
          some ⟨entry, sl, qty, leverage, positionValue / (leverage : ℚ),
                tgt 2, tgt 3, tgt 4⟩

/-- Indicator values of the last closed bar (index -2), as read by
BollingerBandBuySell's `process`. -/
structure HaSig where
  isRed : Bool
  touchLow : Bool
  touchHigh : Bool
  haLow : ℚ
  haHigh : ℚ
deriving DecidableEq

/-- The BUY side of `process` for one pair and a fixed last closed bar.
State: the pair's entry in `buy_watch` (the stored `bb_low`), or `none`.
Output: new state and the emitted alert (`none` when no alert text is
appended, including the case where `calculate_trade_levels` returns
`None` -- the pair is still popped). -/
def bbbsBuyStep (watch : Option ℚ) (b : HaSig) : Option ℚ × Option BbbsTrade :=
  if b.isRed && b.touchLow then (some b.haLow, none)
  else
    match watch with
    | some sl =>
      if !b.isRed then (none, bbbs_calculate_trade_levels b.haHigh sl Side.buy)
      else (some sl, none)
    | none => (none, none)

/-- The SELL side of `process`: watch stores the `bb_high`. -/
def bbbsSellStep (watch : Option ℚ) (b : HaSig) : Option ℚ × Option BbbsTrade :=
  if !b.isRed && b.touchHigh then (some b.haHigh, none)
  else
    match watch with
    | some sh =>
      if b.isRed then (none, bbbs_calculate_trade_levels b.haLow sh Side.sell)
      else (some sh, none)
    | none => (none, none)

/-- The Bollinger bands of BollingerBandBuySell (`bollinger`, period 20,
mult 2, over raw closes). -/
def UpperBB (sq : ℚ → ℚ) (bars : ℕ → Bar) (i : ℕ) : ℚ :=
  rollingMean 20 (fun j => (bars j).close) i + 2 * rollingStd sq 20 (fun j => (bars j).close) i

/-- Lower Bollinger band of BollingerBandBuySell. -/
def LowerBB (sq : ℚ → ℚ) (bars : ℕ → Bar) (i : ℕ) : ℚ :=
  rollingMean 20 (fun j => (bars j).close) i - 2 * rollingStd sq 20 (fun j => (bars j).close) i

/-- The `HaSig` read by `process` at the last closed bar `n - 2` of an
`n`-bar series (`last = ha.iloc[-2]`, `last_bb = df.iloc[-2]`). -/
def bbbsSig (sq : ℚ → ℚ) (bars : ℕ → Bar) (n : ℕ) : HaSig :=
  { isRed := HA_isRed bars (n - 2)
    touchLow := decide ((bars (n - 2)).low ≤ LowerBB sq bars (n - 2))
    touchHigh := decide (UpperBB sq bars (n - 2) ≤ (bars (n - 2)).high)
    haLow := HA_Low bars (n - 2)
    haHigh := HA_High bars (n - 2) }

/-- `process(pair, "BUY")` of BollingerBandBuySell: `fetch_candles` yields
`None` for fewer than 50 raw candles (then `process` does nothing),
otherwise the BUY step runs on the bar signature at index `n - 2`. -/
def bbbsProcessBuy (sq : ℚ → ℚ) (bars : ℕ → Bar) (n : ℕ) (watch : Option ℚ) :
    Option (Option ℚ × Option BbbsTrade) :=
  if n < 50 then none else some (bbbsBuyStep watch (bbbsSig sq bars n))

/-- `process(pair, "SELL")` of BollingerBandBuySell. -/
def bbbsProcessSell (sq : ℚ → ℚ) (bars : ℕ → Bar) (n : ℕ) (watch : Option ℚ) :
    Option (Option ℚ × Option BbbsTrade) :=
  if n < 50 then none else some (bbbsSellStep watch (bbbsSig sq bars n))

/-!
## Shared risk-sizing loop (ReversalBuySell.py, EMACluster.py, EMACCI.py)

```python
for lev in range(MAX_ALLOWED_LEVERAGE, MIN_LEVERAGE - 1, -1):
    position_value = CAPITAL_RS * lev
    loss = (risk / entry) * position_value
    if loss <= MAX_LOSS_RS:
        leverage = lev
        break
else:
    leverage = MIN_LEVERAGE
```

The loop scans leverage candidates from `maxLev` down to `minLev` and
returns the first one whose loss is within `maxLoss`; if the loop
exhausts, the `else` clause yields `minLev`. -/

/-- The loss constraint checked by the loop body. -/
def levLoss (entry risk capital : ℚ) (lev : ℕ) : ℚ :=
  risk / entry * (capital * (lev : ℚ))

/-- The loop, by recursion on the number of remaining candidates: with
fuel `k + 1` the candidate `minLev + k` is tested. -/
def selectLevGo (entry risk capital maxLoss : ℚ) (minLev : ℕ) : ℕ → ℕ
  | 0 => minLev
  | (k + 1) =>
    if levLoss entry risk capital (minLev + k) ≤ maxLoss then minLev + k
    else selectLevGo entry risk capital maxLoss minLev k

/-- The leverage-selection loop over the range `maxLev, ..., minLev`. -/
def selectLeverage (entry risk capital maxLoss : ℚ) (minLev maxLev : ℕ) : ℕ :=
  selectLevGo entry risk capital maxLoss minLev (maxLev + 1 - minLev)

/-- `calculate_trade_levels` of EMACluster.py (CAPITAL_RS = 1000,
MAX_LOSS_RS = 100, leverage range 5..10, targets `entry ± k*risk` for
k = 2,3,4): returns `(entry, sl, leverage, used_capital, t2, t3, t4)`. -/
def emaCluster_calculate_trade_levels (entry sl : ℚ) (side : Side) :
    ℚ × ℚ × ℕ × ℚ × ℚ × ℚ × ℚ :=
  let risk := |entry - sl|
  let leverage := selectLeverage entry risk 1000 100 5 10
  match side with
  | Side.buy => (entry, sl, leverage, 1000, entry + risk * 2, entry + risk * 3, entry + risk * 4)
  | Side.sell => (entry, sl, leverage, 1000, entry - risk * 2, entry - risk * 3, entry - risk * 4)

/-- `calculate_trade_levels` of ReversalBuySell.py (CAPITAL_RS = 1000,
MAX_LOSS_RS = 100, leverage range 5..20): additionally gates on the risk
percentage, returning `None` below `MIN_RISK_PERCENT = 0.2` or above
`MAX_RISK_PERCENT = 2.5`; otherwise returns
`(entry, sl, leverage, capital, t2, t3, t4, risk_percent)`. -/
def reversal_calculate_trade_levels (entry sl : ℚ) (side : Side) :
    Option (ℚ × ℚ × ℕ × ℚ × ℚ × ℚ × ℚ × ℚ) :=
  let risk := |entry - sl|
  let riskPercent := risk / entry * 100
  if riskPercent < 1 / 5 then none
  else if riskPercent > 5 / 2 then none
  else
    let leverage := selectLeverage entry risk 1000 100 5 20
    match side with
    | Side.buy =>
      some (entry, sl, leverage, 1000, entry + risk * 2, entry + risk * 3, entry + risk * 4, riskPercent)
    | Side.sell =>
      some (entry, sl, leverage, 1000, entry - risk * 2, entry - risk * 3, entry - risk * 4, riskPercent)

/-!
## ReversalBuySell.py: indicator pipeline and per-pair transition

`fetch_and_prepare` drops the final (live) bar (`df = df.iloc[:-1]`),
computes Heikin-Ashi (vectorized form), Bollinger bands over `HA_close`
(length 200, mult 2.5), and a Supertrend trend flag over the HA candles
(length 9, factor 1.5, basic bands only — no ratchet in this variant),
then drops the NaN warm-up rows; `process_pair` reads the last row.  With
an `n`-bar raw series the last closed bar sits at index `n - 2`. -/

/-- Bollinger middle band of ReversalBuySell: `HA_close.rolling(200).mean()`. -/
def BB_mid_rev (bars : ℕ → Bar) (i : ℕ) : ℚ :=
  rollingMean 200 (HA_close_rev bars) i

/-- Upper Bollinger band of ReversalBuySell (mult 2.5). -/
def BB_upper_rev (sq : ℚ → ℚ) (bars : ℕ → Bar) (i : ℕ) : ℚ :=
  BB_mid_rev bars i + 5 / 2 * rollingStd sq 200 (HA_close_rev bars) i

/-- Lower Bollinger band of ReversalBuySell (mult 2.5). -/
def BB_lower_rev (sq : ℚ → ℚ) (bars : ℕ → Bar) (i : ℕ) : ℚ :=
  BB_mid_rev bars i - 5 / 2 * rollingStd sq 200 (HA_close_rev bars) i

/-- True range over the Heikin-Ashi candles (ReversalBuySell
`calculate_supertrend`): at index 0 the shifted terms are NaN and the
row-max skips them. -/
def tr_rev (bars : ℕ → Bar) : ℕ → ℚ
  | 0 => HA_high_rev bars 0 - HA_low_rev bars 0
  | (j + 1) => max (HA_high_rev bars (j + 1) - HA_low_rev bars (j + 1))
      (max |HA_high_rev bars (j + 1) - HA_close_rev bars j|
           |HA_low_rev bars (j + 1) - HA_close_rev bars j|)

/-- `atr = rma(tr, ST_LENGTH)` with ST_LENGTH = 9. -/
def atr_rev (bars : ℕ → Bar) (i : ℕ) : ℚ := rma 9 (tr_rev bars) i

/-- Basic upper band: `(HA_high + HA_low)/2 + ST_FACTOR * atr`, ST_FACTOR = 1.5. -/
def upperband_rev (bars : ℕ → Bar) (i : ℕ) : ℚ :=
  (HA_high_rev bars i + HA_low_rev bars i) / 2 + 3 / 2 * atr_rev bars i

/-- Basic lower band. -/
def lowerband_rev (bars : ℕ → Bar) (i : ℕ) : ℚ :=
  (HA_high_rev bars i + HA_low_rev bars i) / 2 - 3 / 2 * atr_rev bars i

/-- The Supertrend direction flag of ReversalBuySell: starts `True`; while
up it flips down only when `HA_high < lowerband`, while down it flips up
only when `HA_low > upperband`. -/
def supertrend_rev (bars : ℕ → Bar) : ℕ → Bool
  | 0 => true
  | (i + 1) =>
    if supertrend_rev bars i then decide (¬ HA_high_rev bars (i + 1) < lowerband_rev bars (i + 1))
    else decide (upperband_rev bars (i + 1) < HA_low_rev bars (i + 1))

/-- `ST_value`: the band the Supertrend line sits on (`st_value[0] = 0`
from the `[0] * len(df)` initialization). -/
def ST_value_rev (bars : ℕ → Bar) : ℕ → ℚ
  | 0 => 0
  | (i + 1) =>
    if supertrend_rev bars i then
      if HA_high_rev bars (i + 1) < lowerband_rev bars (i + 1) then upperband_rev bars (i + 1)
      else lowerband_rev bars (i + 1)
    else
      if upperband_rev bars (i + 1) > HA_low_rev bars (i + 1) then upperband_rev bars (i + 1)
      else lowerband_rev bars (i + 1)

/-- The values `process_pair` reads from the last closed bar. -/
structure RevSig where
  st : Bool
  haClose : ℚ
  bbUpper : ℚ
  bbLower : ℚ
  haLow : ℚ
  haHigh : ℚ
  stValue : ℚ
deriving DecidableEq

/-- The outcome of one ReversalBuySell cycle for one pair: the new
`(inBuy, inSell)` membership, and the `buy_signal` / `sell_signal`
payloads `(entry, ST_value)` that `main` feeds to
`calculate_trade_levels` (the watchlist entry is removed whenever a
signal fires, alert text or not). -/
structure RevOut where
  state : Bool × Bool
  buySig : Option (ℚ × ℚ)
  sellSig : Option (ℚ × ℚ)
deriving DecidableEq

/-- One `process_pair` + `main`-application cycle for one pair.

Order as in the source: first the in-place "remove invalid setups"
filters, then the add conditions (checked against the filtered lists,
applied by `main` afterwards), then the flip checks (also against the
filtered lists), and finally `main` removes a pair whose signal fired. -/
def revStep (s : Bool × Bool) (b : RevSig) : RevOut :=
  let inBuy1 := s.1 && !b.st
  let inSell1 := s.2 && b.st
  let addSell := !inBuy1 && !inSell1 && (decide (b.bbUpper ≤ b.haClose) && b.st)
  let addBuy := !inBuy1 && !inSell1 && !(decide (b.bbUpper ≤ b.haClose) && b.st)
      && (decide (b.haClose ≤ b.bbLower) && !b.st)
  let sellSig := inSell1 && !b.st
  let buySig := inBuy1 && b.st
  { state := ((inBuy1 || addBuy) && !buySig, (inSell1 || addSell) && !sellSig)
    buySig := if buySig then some (b.haHigh, b.stValue) else none
    sellSig := if sellSig then some (b.haLow, b.stValue) else none }

/-- Iterated ReversalBuySell cycles for one pair from empty watchlists. -/
def revRun (l : List RevSig) : Bool × Bool :=
  l.foldl (fun s b => (revStep s b).state) (false, false)

/-- The `RevSig` at the last closed bar `n - 2` of an `n`-bar raw series. -/
def revSig (sq : ℚ → ℚ) (bars : ℕ → Bar) (n : ℕ) : RevSig :=
  { st := supertrend_rev bars (n - 2)
    haClose := HA_close_rev bars (n - 2)
    bbUpper := BB_upper_rev sq bars (n - 2)
    bbLower := BB_lower_rev sq bars (n - 2)
    haLow := HA_low_rev bars (n - 2)
    haHigh := HA_high_rev bars (n - 2)
    stValue := ST_value_rev bars (n - 2) }

/-- One ReversalBuySell cycle for one pair starting from the raw fetched
series: `fetch_and_prepare` returns `None` for fewer than
`BB_LENGTH + 10 = 210` raw candles, otherwise `process_pair` runs on the
last closed bar. -/
def revProcess (sq : ℚ → ℚ) (bars : ℕ → Bar) (n : ℕ) (s : Bool × Bool) : Option RevOut :=
  if n < 210 then none else some (revStep s (revSig sq bars n))

/-!
## CCISetup.py: `fetch_and_check`

`calculate_cci` (CCI_Calculater.py) returns the single, final CCI value as
a Python float; `df['cci'] = calculate_cci(...)` broadcasts that scalar
into a constant column.  `fetch_and_check` then reads
`last_cci = df['cci'].iloc[-2]` and the previous window
`df['cci'].iloc[-(PREV_CANDLES+2):-2]` (PREV_CANDLES = 10), and decides

```python
if last_cci > CCI_UPPER:            # 200
    if all(prev_cci_window <= CCI_UPPER): signal_type = "BUY"
elif last_cci < CCI_LOWER:          # -200
    if all(prev_cci_window >= CCI_LOWER): signal_type = "SELL"
```

returning the result dict only when a signal fired, else `None`. -/

/-- The signal decision of `fetch_and_check` on an `n`-row DataFrame whose
`cci` column is the broadcast scalar `v` (an `FVal`: the scalar is NaN
when the series is shorter than the CCI period).  For `n ≥ 3` the window
`iloc[-12:-2]` holds `min (n-2) 10` copies of `v`. -/
def fetch_and_check (v : FVal) (n : ℕ) : Option Side :=
  let window : List FVal := List.replicate (min (n - 2) 10) v
  if FVal.gtQ v 200 then
    if window.all (fun x => FVal.leQ x 200) then some Side.buy else none
  else if FVal.ltQ v (-200) then
    if window.all (fun x => FVal.geQ x (-200)) then some Side.sell else none
  else none

/-!
## Basic-band series of Indicators.py `supertrend`

`UpperBand = hl2 + multiplier * ATR`, `LowerBand = hl2 - multiplier * ATR`
with the rolling-mean ATR. -/

/-- `df["UpperBand"]` of Indicators.py. -/
def UpperBand_ind (p : ℕ) (mult : ℚ) (bars : ℕ → Bar) (i : ℕ) : ℚ :=
  hl2 bars i + mult * ATR_ind p bars i

/-- `df["LowerBand"]` of Indicators.py. -/
def LowerBand_ind (p : ℕ) (mult : ℚ) (bars : ℕ → Bar) (i : ℕ) : ℚ :=
  hl2 bars i - mult * ATR_ind p bars i

theorem Final_UpperBand_step_le (upper close : ℕ → ℚ) (i : ℕ)
    (h : close i ≤ Final_UpperBand upper close i) :
    Final_UpperBand upper close (i + 1) ≤ Final_UpperBand upper close i := by
  simp only [Final_UpperBand]
  split
  · next hc =>
    rcases hc with hc | hc
    · exact le_of_lt hc
    · linarith
  · exact le_refl _

theorem Final_UpperBand_step_reset (upper close : ℕ → ℚ) (i : ℕ)
    (h : Final_UpperBand upper close i < close i) :
    Final_UpperBand upper close (i + 1) = upper (i + 1) := by
  simp only [Final_UpperBand]
  exact if_pos (Or.inr h)

theorem Final_LowerBand_step_ge (lower close : ℕ → ℚ) (i : ℕ)
    (h : Final_LowerBand lower close i ≤ close i) :
    Final_LowerBand lower close i ≤ Final_LowerBand lower close (i + 1) := by
  simp only [Final_LowerBand]
  split
  · next hc =>
    rcases hc with hc | hc
    · exact le_of_lt hc
    · linarith
  · exact le_refl _

theorem Final_LowerBand_step_reset (lower close : ℕ → ℚ) (i : ℕ)
    (h : close i < Final_LowerBand lower close i) :
    Final_LowerBand lower close (i + 1) = lower (i + 1) := by
  simp only [Final_LowerBand]
  exact if_pos (Or.inr h)

theorem Final_UpperBand_antitone (upper close : ℕ → ℚ) (i : ℕ) :
    ∀ j, i ≤ j → (∀ k, i ≤ k → k < j → close k ≤ Final_UpperBand upper close k) →
    Final_UpperBand upper close j ≤ Final_UpperBand upper close i := by
  intro j
  induction j with
  | zero =>
    intro hij _
    have hi0 : i = 0 := Nat.le_zero.mp hij
    simp [hi0]
  | succ m ih =>
    intro hij hall
    rcases Nat.lt_or_ge i (m + 1) with hlt | hge
    · have him : i ≤ m := Nat.lt_succ_iff.mp hlt
      have h1 : Final_UpperBand upper close (m + 1) ≤ Final_UpperBand upper close m :=
        Final_UpperBand_step_le upper close m (hall m him (Nat.lt_succ_self m))
      have h2 := ih him (fun k hk1 hk2 => hall k hk1 (Nat.lt_succ_of_lt hk2))
      linarith
    · have : i = m + 1 := le_antisymm hij hge
      simp [this]

/-- C1: Supertrend final-band ratchet.  For every price series, period and
multiplier, at every step of the final-band recurrence of
Indicators.py `supertrend` / SupertrendMomentum.py `calculate_supertrend`:
the final upper band does not increase unless the previous close is
strictly above the previous final upper band, in which case it resets to
the basic upper band; symmetrically the final lower band does not decrease
unless the previous close is strictly below it, in which case it resets to
the basic lower band; and the final upper band is non-increasing over any
stretch of indices on which the close stays at or below it. -/
theorem supertrend_final_band_ratchet :
    ∀ (bars : ℕ → Bar) (p : ℕ) (mult : ℚ) (i : ℕ),
    ((fun j => (bars j).close) i ≤
        Final_UpperBand (UpperBand_ind p mult bars) (fun j => (bars j).close) i →
      Final_UpperBand (UpperBand_ind p mult bars) (fun j => (bars j).close) (i + 1) ≤
        Final_UpperBand (UpperBand_ind p mult bars) (fun j => (bars j).close) i)
    ∧ (Final_UpperBand (UpperBand_ind p mult bars) (fun j => (bars j).close) i <
        (fun j => (bars j).close) i →
      Final_UpperBand (UpperBand_ind p mult bars) (fun j => (bars j).close) (i + 1) =
        UpperBand_ind p mult bars (i + 1))
    ∧ (Final_LowerBand (LowerBand_ind p mult bars) (fun j => (bars j).close) i ≤
        (fun j => (bars j).close) i →
      Final_LowerBand (LowerBand_ind p mult bars) (fun j => (bars j).close) i ≤
        Final_LowerBand (LowerBand_ind p mult bars) (fun j => (bars j).close) (i + 1))
    ∧ ((fun j => (bars j).close) i <
        Final_LowerBand (LowerBand_ind p mult bars) (fun j => (bars j).close) i →
      Final_LowerBand (LowerBand_ind p mult bars) (fun j => (bars j).close) (i + 1) =
        LowerBand_ind p mult bars (i + 1))
    ∧ (∀ j, i ≤ j →
      (∀ k, i ≤ k → k < j → (fun j => (bars j).close) k ≤
          Final_UpperBand (UpperBand_ind p mult bars) (fun j => (bars j).close) k) →
      Final_UpperBand (UpperBand_ind p mult bars) (fun j => (bars j).close) j ≤
        Final_UpperBand (UpperBand_ind p mult bars) (fun j => (bars j).close) i) := by
  intro bars p mult i
  exact ⟨Final_UpperBand_step_le (UpperBand_ind p mult bars) (fun j => (bars j).close) i,
    Final_UpperBand_step_reset (UpperBand_ind p mult bars) (fun j => (bars j).close) i,
    Final_LowerBand_step_ge (LowerBand_ind p mult bars) (fun j => (bars j).close) i,
    Final_LowerBand_step_reset (LowerBand_ind p mult bars) (fun j => (bars j).close) i,
    Final_UpperBand_antitone (UpperBand_ind p mult bars) (fun j => (bars j).close) i⟩

/-- A concrete constant candle series used to witness the ratchet claim. -/
def barsC1 : ℕ → Bar := fun _ => ⟨5, 10, 0, 5⟩

theorem supertrend_final_band_ratchet_witness :
    ((fun j => (barsC1 j).close) 0 ≤
      Final_UpperBand (UpperBand_ind 1 1 barsC1) (fun j => (barsC1 j).close) 0)
    ∧ Final_UpperBand (UpperBand_ind 1 1 barsC1) (fun j => (barsC1 j).close) 1 ≤
      Final_UpperBand (UpperBand_ind 1 1 barsC1) (fun j => (barsC1 j).close) 0 := by
  have h : (fun j => (barsC1 j).close) 0 ≤
      Final_UpperBand (UpperBand_ind 1 1 barsC1) (fun j => (barsC1 j).close) 0 := by
    norm_num [Final_UpperBand, UpperBand_ind, hl2, ATR_ind, rollingMean, trSeq, barsC1,
      Finset.sum_range_one]
  exact ⟨h, (supertrend_final_band_ratchet barsC1 1 1 0).1 h⟩

/-- C3 (amended): the `rma` smoother of SupertrendMomentum.py and
ReversalBuySell.py — `ewm(alpha=1/period, adjust=False).mean()` — equals
Wilder smoothing of its input at every index.  (Indicators.py's
`supertrend` instead smooths TR with a simple rolling mean; see the
counterexample.) -/
theorem rma_eq_wilderSmooth : ∀ (p : ℕ) (x : ℕ → ℚ) (i : ℕ),
    rma p x i = wilderSmooth p x i := by
  intro p x i
  induction i with
  | zero => rfl
  | succ m ih =>
    show (1 - 1 / (p : ℚ)) * rma p x m + (1 / (p : ℚ)) * x (m + 1) = _
    rw [ih]
    show _ = wilderSmooth p x m + (1 / (p : ℚ)) * (x (m + 1) - wilderSmooth p x m)
    ring

/-- A concrete candle series: true range 10 at index 0, then 0. -/
def barsC3 : ℕ → Bar := fun i => if i = 0 then ⟨5, 10, 0, 5⟩ else ⟨5, 5, 5, 5⟩

/-- C3 counterexample: on `barsC3` the ATR of Indicators.py `supertrend`
(simple rolling mean of TR, period 10) differs at index 9 from the Wilder
smoothing of the same true-range series (1 versus 10·(9/10)⁹). -/
theorem atr_ind_ne_wilderSmooth :
    ATR_ind 10 barsC3 9 ≠ wilderSmooth 10 (trSeq barsC3) 9 := by
  norm_num [ATR_ind, rollingMean, wilderSmooth, trSeq, barsC3, Finset.sum_range_succ]

/-- C7 (amended): for the accumulator-form Heikin-Ashi transform
(BollingerBandBuySell / BB_RSI / SupertrendMomentum), `HA_Open(0)` is the
average of the first raw open and close, `HA_Open(i+1)` is exactly the
average of `HA_Open(i)` and `HA_Close(i)`, and therefore lies between them
inclusive.  (ReversalBuySell's vectorized variant violates the recurrence;
see the counterexample.) -/
theorem heikin_ashi_open_recurrence : ∀ (bars : ℕ → Bar) (i : ℕ),
    HA_Open bars 0 = ((bars 0).open_ + (bars 0).close) / 2
    ∧ HA_Open bars (i + 1) = (HA_Open bars i + HA_Close bars i) / 2
    ∧ min (HA_Open bars i) (HA_Close bars i) ≤ HA_Open bars (i + 1)
    ∧ HA_Open bars (i + 1) ≤ max (HA_Open bars i) (HA_Close bars i) := by
  intro bars i
  refine ⟨rfl, rfl, ?_, ?_⟩
  · rcases le_total (HA_Open bars i) (HA_Close bars i) with h | h
    · rw [min_eq_left h]
      show HA_Open bars i ≤ (HA_Open bars i + HA_Close bars i) / 2
      linarith
    · rw [min_eq_right h]
      show HA_Close bars i ≤ (HA_Open bars i + HA_Close bars i) / 2
      linarith
  · rcases le_total (HA_Open bars i) (HA_Close bars i) with h | h
    · rw [max_eq_right h]
      show (HA_Open bars i + HA_Close bars i) / 2 ≤ HA_Close bars i
      linarith
    · rw [max_eq_left h]
      show (HA_Open bars i + HA_Close bars i) / 2 ≤ HA_Open bars i
      linarith

/-- A single wide candle: open 0, high 8, low 0, close 0. -/
def barsC7 : ℕ → Bar := fun _ => ⟨0, 8, 0, 0⟩

/-- C7 counterexample: in ReversalBuySell's `calculate_heikin_ashi` the
`HA_open` at index 1 is `(raw open(0) + raw close(0))/2 = 0`, not the
average `(HA_Open(0) + HA_Close(0))/2 = 1` required by the claim. -/
theorem ha_open_rev_breaks_recurrence :
    HA_open_rev barsC7 1 ≠ (HA_open_rev barsC7 0 + HA_close_rev barsC7 0) / 2 := by
  norm_num [HA_open_rev, HA_close_rev, HA_Close, barsC7]

/-- C9: because `calculate_cci` returns one scalar that `fetch_and_check`
broadcasts into a constant `cci` column, for every DataFrame of at least
3 rows the previous-window first-cross guard contains the very value being
tested, so no BUY or SELL signal can ever fire and `fetch_and_check`
returns `None`.  `v` is the broadcast scalar (possibly NaN). -/
theorem fetch_and_check_always_none : ∀ (v : FVal) (n : ℕ), 3 ≤ n →
    fetch_and_check v n = none := by
  intro v n hn
  have hm : min (n - 2) 10 ≠ 0 := by omega
  have hmem : v ∈ List.replicate (min (n - 2) 10) v := List.mem_replicate.mpr ⟨hm, rfl⟩
  unfold fetch_and_check
  cases v with
  | fin q =>
    by_cases hq : (200 : ℚ) < q
    · have hall : ¬ ((List.replicate (min (n - 2) 10) (FVal.fin q)).all
          (fun x => FVal.leQ x 200) = true) := by
        rw [List.all_eq_true]
        intro h
        have h2 := h _ hmem
        simp only [FVal.leQ, decide_eq_true_eq] at h2
        exact absurd h2 (not_le.mpr hq)
      have hgt : FVal.gtQ (FVal.fin q) 200 = true := by
        simp [FVal.gtQ, hq]
      simp only [hgt, if_true, if_neg hall]
    · by_cases hq2 : q < -200
      · have hall : ¬ ((List.replicate (min (n - 2) 10) (FVal.fin q)).all
            (fun x => FVal.geQ x (-200)) = true) := by
          rw [List.all_eq_true]
          intro h
          have h2 := h _ hmem
          simp only [FVal.geQ, decide_eq_true_eq] at h2
          exact absurd h2 (not_le.mpr hq2)
        have hgt : FVal.gtQ (FVal.fin q) 200 = false := by
          simp [FVal.gtQ, hq]
        have hlt : FVal.ltQ (FVal.fin q) (-200) = true := by
          simp [FVal.ltQ, hq2]
        simp only [hgt, hlt, Bool.false_eq_true, if_false, if_true, if_neg hall]
      · have hgt : FVal.gtQ (FVal.fin q) 200 = false := by
          simp [FVal.gtQ, hq]
        have hlt : FVal.ltQ (FVal.fin q) (-200) = false := by
          simp [FVal.ltQ, hq2]
        simp [hgt, hlt]
  | inf =>
    have hall : ¬ ((List.replicate (min (n - 2) 10) FVal.inf).all
        (fun x => FVal.leQ x 200) = true) := by
      rw [List.all_eq_true]
      intro h
      have h2 := h _ hmem
      simp [FVal.leQ] at h2
    simp only [FVal.gtQ, if_true, if_neg hall]
  | ninf =>
    have hall : ¬ ((List.replicate (min (n - 2) 10) FVal.ninf).all
        (fun x => FVal.geQ x (-200)) = true) := by
      rw [List.all_eq_true]
      intro h
      have h2 := h _ hmem
      simp [FVal.geQ] at h2
    simp only [FVal.gtQ, FVal.ltQ, Bool.false_eq_true, if_false, if_true, if_neg hall]
  | nan =>
    simp [FVal.gtQ, FVal.ltQ]

theorem fetch_and_check_always_none_witness :
    3 ≤ 3 ∧ fetch_and_check (FVal.fin 300) 3 = none :=
  ⟨le_refl 3, fetch_and_check_always_none (FVal.fin 300) 3 (le_refl 3)⟩

/-- C10: wherever the RSI of `calculate_rsi` is defined (past the
`min_periods` warm-up, with a nonzero Wilder-smoothed average loss), its
value is a finite number in the closed interval [0, 100]. -/
theorem rsi_in_range : ∀ (c : ℕ → ℚ) (p i : ℕ), p ≤ i → avgLoss c p i ≠ 0 →
    ∃ q, calculate_rsi c p i = FVal.fin q ∧ 0 ≤ q ∧ q ≤ 100 := by
  intro c p i hpi hl
  have hl0 : 0 < avgLoss c p i := lt_of_le_of_ne (avgLoss_nonneg c p i) (Ne.symm hl)
  have hg0 : 0 ≤ avgGain c p i := avgGain_nonneg c p i
  have hrnn : 0 ≤ avgGain c p i / avgLoss c p i := div_nonneg hg0 (le_of_lt hl0)
  have h1r : (0 : ℚ) < 1 + avgGain c p i / avgLoss c p i := by linarith
  refine ⟨100 - 100 / (1 + avgGain c p i / avgLoss c p i), ?_, ?_, ?_⟩
  · unfold calculate_rsi
    rw [if_neg (by omega)]
    rw [FVal.fdiv, if_neg hl]
    show FVal.subQ 100 (FVal.fdiv 100 (1 + avgGain c p i / avgLoss c p i)) = _
    rw [FVal.fdiv, if_neg (ne_of_gt h1r)]
    rfl
  · have h2 : 100 / (1 + avgGain c p i / avgLoss c p i) ≤ 100 := by
      rw [div_le_iff₀ h1r]
      nlinarith
    linarith
  · have h2 : 0 < 100 / (1 + avgGain c p i / avgLoss c p i) := by positivity
    linarith

/-- An alternating close series 10, 9, 10, 9, ... -/
def altSeq : ℕ → ℚ := fun i => if i % 2 = 0 then 10 else 9

theorem rsi_in_range_witness :
    ((2 : ℕ) ≤ 2 ∧ avgLoss altSeq 2 2 ≠ 0)
    ∧ ∃ q, calculate_rsi altSeq 2 2 = FVal.fin q ∧ 0 ≤ q ∧ q ≤ 100 := by
  have h : avgLoss altSeq 2 2 ≠ 0 := by
    norm_num [avgLoss, lossSeq, deltaSeq, altSeq]
  exact ⟨⟨le_refl 2, h⟩, rsi_in_range altSeq 2 2 (le_refl 2) h⟩

/-- C6 (amended): past warm-up, whenever the average loss is zero and the
average gain is strictly positive, the RSI equals exactly 100: the float
division produces `+inf`, and `100 - 100/(1 + inf)` collapses back to the
finite value 100 before any comparison sees it.  (When the average gain is
*also* zero — e.g. a constant close series — the ratio is NaN and so is
the RSI; see the counterexample.) -/
theorem rsi_zero_loss_eq_100 : ∀ (c : ℕ → ℚ) (p i : ℕ), p ≤ i →
    avgLoss c p i = 0 → 0 < avgGain c p i → calculate_rsi c p i = FVal.fin 100 := by
  intro c p i hpi hl hg
  unfold calculate_rsi
  rw [if_neg (by omega)]
  rw [FVal.fdiv, if_pos hl, if_neg (ne_of_gt hg), if_pos hg]
  show FVal.subQ 100 (FVal.divQ 100 (FVal.addQ 1 FVal.inf)) = FVal.fin 100
  norm_num [FVal.addQ, FVal.divQ, FVal.subQ]

/-- The identity close series 0, 1, 2, ... (strictly increasing). -/
def natSeq : ℕ → ℚ := fun i => (i : ℚ)

theorem rsi_zero_loss_eq_100_witness :
    ((2 : ℕ) ≤ 2 ∧ avgLoss natSeq 2 2 = 0 ∧ 0 < avgGain natSeq 2 2)
    ∧ calculate_rsi natSeq 2 2 = FVal.fin 100 := by
  have h1 : avgLoss natSeq 2 2 = 0 := by
    norm_num [avgLoss, lossSeq, deltaSeq, natSeq]
  have h2 : 0 < avgGain natSeq 2 2 := by
    norm_num [avgGain, gainSeq, deltaSeq, natSeq]
  exact ⟨⟨le_refl 2, h1, h2⟩, rsi_zero_loss_eq_100 natSeq 2 2 (le_refl 2) h1 h2⟩

/-- The constant close series 5, 5, 5, ... -/
def constSeq5 : ℕ → ℚ := fun _ => 5

/-- C6 counterexample: on a constant close series the average loss at a
defined index is 0 (and the average gain, a defined value, is also 0), yet
the RSI is NaN rather than 100 — the `0/0` ratio propagates NaN into the
downstream boolean comparison (which then evaluates to false). -/
theorem rsi_zero_loss_nan_on_constant :
    avgLoss constSeq5 2 2 = 0 ∧ avgGain constSeq5 2 2 = 0
    ∧ calculate_rsi constSeq5 2 2 = FVal.nan
    ∧ calculate_rsi constSeq5 2 2 ≠ FVal.fin 100
    ∧ FVal.gtQ (calculate_rsi constSeq5 2 2) 50 = false := by
  have h3 : calculate_rsi constSeq5 2 2 = FVal.nan := by
    norm_num [calculate_rsi, avgGain, avgLoss, gainSeq, lossSeq, deltaSeq, constSeq5,
      FVal.fdiv, FVal.addQ, FVal.divQ, FVal.subQ]
  refine ⟨?_, ?_, h3, ?_, ?_⟩
  · norm_num [avgLoss, lossSeq, deltaSeq, constSeq5]
  · norm_num [avgGain, gainSeq, deltaSeq, constSeq5]
  · rw [h3]
    simp
  · rw [h3]
    rfl

theorem selectLevGo_ge (entry risk capital maxLoss : ℚ) (minLev : ℕ) :
    ∀ k, minLev ≤ selectLevGo entry risk capital maxLoss minLev k := by
  intro k
  induction k with
  | zero => exact le_refl _
  | succ m ih =>
    show minLev ≤ if levLoss entry risk capital (minLev + m) ≤ maxLoss then minLev + m
        else selectLevGo entry risk capital maxLoss minLev m
    split
    · exact Nat.le_add_right _ _
    · exact ih

theorem selectLevGo_le (entry risk capital maxLoss : ℚ) (minLev : ℕ) :
    ∀ k, selectLevGo entry risk capital maxLoss minLev (k + 1) ≤ minLev + k := by
  intro k
  induction k with
  | zero =>
    show (if levLoss entry risk capital (minLev + 0) ≤ maxLoss then minLev + 0
        else selectLevGo entry risk capital maxLoss minLev 0) ≤ minLev + 0
    split
    · exact le_refl _
    · exact Nat.le_add_right _ _
  | succ m ih =>
    show (if levLoss entry risk capital (minLev + (m + 1)) ≤ maxLoss then minLev + (m + 1)
        else selectLevGo entry risk capital maxLoss minLev (m + 1)) ≤ minLev + (m + 1)
    split
    · exact le_refl _
    · exact le_trans ih (by omega)

theorem selectLevGo_ok_or (entry risk capital maxLoss : ℚ) (minLev : ℕ) :
    ∀ k, levLoss entry risk capital (selectLevGo entry risk capital maxLoss minLev k) ≤ maxLoss
      ∨ selectLevGo entry risk capital maxLoss minLev k = minLev := by
  intro k
  induction k with
  | zero => exact Or.inr rfl
  | succ m ih =>
    show levLoss entry risk capital (if levLoss entry risk capital (minLev + m) ≤ maxLoss
        then minLev + m else selectLevGo entry risk capital maxLoss minLev m) ≤ maxLoss
      ∨ (if levLoss entry risk capital (minLev + m) ≤ maxLoss then minLev + m
        else selectLevGo entry risk capital maxLoss minLev m) = minLev
    split
    · next h => exact Or.inl h
    · exact ih

theorem selectLevGo_max (entry risk capital maxLoss : ℚ) (minLev : ℕ) :
    ∀ k j, j < k → levLoss entry risk capital (minLev + j) ≤ maxLoss →
      minLev + j ≤ selectLevGo entry risk capital maxLoss minLev k := by
  intro k
  induction k with
  | zero => omega
  | succ m ih =>
    intro j hj hok
    show minLev + j ≤ if levLoss entry risk capital (minLev + m) ≤ maxLoss then minLev + m
        else selectLevGo entry risk capital maxLoss minLev m
    split
    · next h => omega
    · next h =>
      rcases Nat.lt_or_ge j m with hjm | hjm
      · exact ih j hjm hok
      · have : j = m := by omega
        subst this
        exact absurd hok h

/-- C5 (amended): the shared leverage-selection loop (ReversalBuySell.py,
EMACluster.py, EMACCI.py) returns the largest integer leverage in
`[minLev, maxLev]` whose projected loss `risk/entry · capital · lev` stays
within `maxLoss`, and falls back to `minLev` when no candidate in the range
qualifies; on the spec's scenario (entry 100, stop 95, capital 500, max
loss 50, range 5–30) it selects the floor 5, and EMACluster's
`calculate_trade_levels` yields leverage 5 with BUY targets
110/115/120 = 100 + {2,3,4}·5.  (ReversalBuySell's `calculate_trade_levels`
returns `None` on that same scenario — see the counterexample — because
its risk-percent filter rejects a 5% stop distance before leverage
selection runs.) -/
theorem risk_sizing_leverage_selection :
    ∀ (entry risk capital maxLoss : ℚ) (minLev maxLev : ℕ), minLev ≤ maxLev →
    (minLev ≤ selectLeverage entry risk capital maxLoss minLev maxLev
      ∧ selectLeverage entry risk capital maxLoss minLev maxLev ≤ maxLev)
    ∧ (∀ l, minLev ≤ l → l ≤ maxLev → levLoss entry risk capital l ≤ maxLoss →
        l ≤ selectLeverage entry risk capital maxLoss minLev maxLev)
    ∧ (levLoss entry risk capital (selectLeverage entry risk capital maxLoss minLev maxLev) ≤ maxLoss
      ∨ selectLeverage entry risk capital maxLoss minLev maxLev = minLev)
    ∧ ((∀ l, minLev ≤ l → l ≤ maxLev → ¬ levLoss entry risk capital l ≤ maxLoss) →
        selectLeverage entry risk capital maxLoss minLev maxLev = minLev)
    ∧ selectLeverage 100 5 500 50 5 30 = 5
    ∧ emaCluster_calculate_trade_levels 100 95 Side.buy = (100, 95, 5, 1000, 110, 115, 120) := by
  intro entry risk capital maxLoss minLev maxLev hrange
  have hfuel : maxLev + 1 - minLev = (maxLev - minLev) + 1 := by omega
  have hle : selectLeverage entry risk capital maxLoss minLev maxLev ≤ maxLev := by
    unfold selectLeverage
    rw [hfuel]
    have := selectLevGo_le entry risk capital maxLoss minLev (maxLev - minLev)
    omega
  have hge := selectLevGo_ge entry risk capital maxLoss minLev (maxLev + 1 - minLev)
  refine ⟨⟨hge, hle⟩, ?_, selectLevGo_ok_or entry risk capital maxLoss minLev _, ?_, ?_, ?_⟩
  · intro l hl1 hl2 hok
    have h : l = minLev + (l - minLev) := by omega
    rw [h] at hok ⊢
    exact selectLevGo_max entry risk capital maxLoss minLev _ _ (by omega) hok
  · intro hnone
    rcases selectLevGo_ok_or entry risk capital maxLoss minLev (maxLev + 1 - minLev) with hok | hmin
    · exact absurd hok (hnone _ hge hle)
    · exact hmin
  · show selectLevGo 100 5 500 50 5 26 = 5
    norm_num [selectLevGo, levLoss]
  · have h5 : selectLeverage 100 (|100 - 95| : ℚ) 1000 100 5 10 = 5 := by
      show selectLevGo 100 (|100 - 95| : ℚ) 1000 100 5 6 = 5
      norm_num [selectLevGo, levLoss]
    simp only [emaCluster_calculate_trade_levels, h5]
    norm_num

theorem risk_sizing_leverage_selection_witness :
    (5 : ℕ) ≤ 30 ∧ selectLeverage 100 5 500 50 5 30 = 5 :=
  ⟨by omega, (risk_sizing_leverage_selection 100 5 500 50 5 30 (by omega)).2.2.2.2.1⟩

/-- C5 counterexample: on the spec's own risk-sizing scenario
(entry 100, stop 95, BUY), ReversalBuySell's `calculate_trade_levels` —
one of the functions the claim describes — returns `None` instead of the
minimum-leverage fallback with targets 110/115/120: the 5% stop distance
exceeds its `MAX_RISK_PERCENT = 2.5` filter. -/
theorem reversal_trade_levels_scenario_none :
    reversal_calculate_trade_levels 100 95 Side.buy = none := by
  norm_num [reversal_calculate_trade_levels]

/-- C4 (amended): ReversalBuySell's per-pair transition enforces side
mutual exclusion — after any cycle (from any prior state) a pair is never
in both watchlists, hence every state reachable from empty stores under
any sequence of cycles keeps the BUY and SELL memberships disjoint.
(BB_RSI's update does not enforce this; see the counterexample.) -/
theorem reversal_watchlist_mutual_exclusion :
    (∀ (s : Bool × Bool) (b : RevSig),
      ((revStep s b).state.1 && (revStep s b).state.2) = false)
    ∧ (∀ l : List RevSig, ((revRun l).1 && (revRun l).2) = false) := by
  have h1 : ∀ (s : Bool × Bool) (b : RevSig),
      ((revStep s b).state.1 && (revStep s b).state.2) = false := by
    intro s b
    rcases s with ⟨s1, s2⟩
    rcases b with ⟨st, hc, bu, bl, hlw, hh, sv⟩
    cases st <;> simp [revStep]
  have h2 : ∀ (l : List RevSig) (s : Bool × Bool), (s.1 && s.2) = false →
      (((l.foldl (fun s b => (revStep s b).state) s).1
        && (l.foldl (fun s b => (revStep s b).state) s).2) = false) := by
    intro l
    induction l with
    | nil => intro s hs; simpa using hs
    | cons b t ih =>
      intro s hs
      simp only [List.foldl_cons]
      exact ih _ (h1 s b)
  exact ⟨h1, fun l => h2 l (false, false) rfl⟩

/-- A bar whose HA low touches the lower band and whose HA high touches
the upper band in the same cycle, with a neutral RSI. -/
def bothSidesBar : RsiSig := ⟨1, 2, 10, 3, FVal.fin 40⟩

/-- C4 counterexample: starting from empty stores, a single BB_RSI cycle
on `bothSidesBar` puts the pair in the BUY and the SELL watchlist
simultaneously. -/
theorem bb_rsi_both_sides_reachable : bbRsiRun [bothSidesBar] = (true, true) := by
  norm_num [bbRsiRun, bbRsiStep, bothSidesBar, FVal.gtQ, FVal.ltQ]

/-- C8 (amended): one BollingerBandBuySell `process` run on a fixed last
closed bar is idempotent — a second run on the identical bar leaves the
watchlist entry unchanged and emits no alert at all, on both sides.
BB_RSI's cycle is idempotent in its watchlist contents, but not in its
alerts; see the counterexample. -/
theorem watchlist_idempotence :
    ∀ (w : Option ℚ) (s : Bool × Bool) (b : HaSig) (r : RsiSig),
      (bbbsBuyStep (bbbsBuyStep w b).1 b).1 = (bbbsBuyStep w b).1
      ∧ (bbbsBuyStep (bbbsBuyStep w b).1 b).2 = none
      ∧ (bbbsSellStep (bbbsSellStep w b).1 b).1 = (bbbsSellStep w b).1
      ∧ (bbbsSellStep (bbbsSellStep w b).1 b).2 = none
      ∧ (bbRsiStep (bbRsiStep s r).1 r).1 = (bbRsiStep s r).1 := by
  intro w s b r
  rcases b with ⟨red, tl, th, hl, hh⟩
  rcases s with ⟨s1, s2⟩
  refine ⟨?_, ?_, ?_, ?_, ?_⟩
  · cases red <;> cases tl <;> rcases w with _ | sl <;> simp [bbbsBuyStep]
  · cases red <;> cases tl <;> rcases w with _ | sl <;> simp [bbbsBuyStep]
  · cases red <;> cases th <;> rcases w with _ | sh <;> simp [bbbsSellStep]
  · cases red <;> cases th <;> rcases w with _ | sh <;> simp [bbbsSellStep]
  · cases hG : FVal.gtQ r.rsi 50 <;> cases hL : FVal.ltQ r.rsi 50 <;>
      cases s1 <;> cases s2 <;> simp [bbRsiStep, hG, hL]

/-- A bar that satisfies the BUY confirmation (RSI 60 > 50) and the BUY
re-add band touch (HA low 1 ≤ lower band 2) at the same time. -/
def dupBar : RsiSig := ⟨1, 2, 3, 10, FVal.fin 60⟩

/-- C8 counterexample: with the pair already in the BUY watchlist, a
BB_RSI cycle on `dupBar` emits the buy alert, removes and immediately
re-adds the pair; a second cycle on the same unchanged bar emits the
identical buy alert again. -/
theorem bb_rsi_duplicate_alert :
    (bbRsiStep (true, false) dupBar).2.1 = true
    ∧ (bbRsiStep (bbRsiStep (true, false) dupBar).1 dupBar).2.1 = true := by
  norm_num [bbRsiStep, dupBar, FVal.gtQ, FVal.ltQ]

/-!
## C2: live-bar exclusion

The claim is a hyperproperty: two fetched series that differ only in the
final (still-open) bar must produce identical per-pair decisions.  The
congruence lemmas below show that every indicator value read by
BollingerBandBuySell's `process` and ReversalBuySell's `process_pair`
at the last closed bar `n - 2` is a function of the bars at indices
`≤ n - 2` only. -/

theorem HA_Close_congr (f g : ℕ → Bar) (i : ℕ) (h : f i = g i) :
    HA_Close f i = HA_Close g i := by
  simp [HA_Close, h]

theorem HA_Open_congr (f g : ℕ → Bar) : ∀ i, (∀ k, k ≤ i → f k = g k) →
    HA_Open f i = HA_Open g i := by
  intro i
  induction i with
  | zero =>
    intro h
    simp [HA_Open, h 0 (le_refl 0)]
  | succ m ih =>
    intro h
    have hm : HA_Open f m = HA_Open g m := ih (fun k hk => h k (le_trans hk (Nat.le_succ m)))
    show (HA_Open f m + HA_Close f m) / 2 = (HA_Open g m + HA_Close g m) / 2
    rw [hm, HA_Close_congr f g m (h m (Nat.le_succ m))]

theorem HA_High_congr (f g : ℕ → Bar) (i : ℕ) (h : ∀ k, k ≤ i → f k = g k) :
    HA_High f i = HA_High g i := by
  unfold HA_High
  rw [HA_Open_congr f g i h, HA_Close_congr f g i (h i (le_refl i)), h i (le_refl i)]

theorem HA_Low_congr (f g : ℕ → Bar) (i : ℕ) (h : ∀ k, k ≤ i → f k = g k) :
    HA_Low f i = HA_Low g i := by
  unfold HA_Low
  rw [HA_Open_congr f g i h, HA_Close_congr f g i (h i (le_refl i)), h i (le_refl i)]

theorem rollingMean_congr (p : ℕ) (x y : ℕ → ℚ) (i : ℕ) (h : ∀ k, k ≤ i → x k = y k) :
    rollingMean p x i = rollingMean p y i := by
  unfold rollingMean
  congr 1
  exact Finset.sum_congr rfl (fun k _ => h (i - k) (Nat.sub_le i k))

theorem rollingVar_congr (p : ℕ) (x y : ℕ → ℚ) (i : ℕ) (h : ∀ k, k ≤ i → x k = y k) :
    rollingVar p x i = rollingVar p y i := by
  unfold rollingVar
  congr 1
  refine Finset.sum_congr rfl (fun k _ => ?_)
  rw [h (i - k) (Nat.sub_le i k), rollingMean_congr p x y i h]

theorem rollingStd_congr (sq : ℚ → ℚ) (p : ℕ) (x y : ℕ → ℚ) (i : ℕ)
    (h : ∀ k, k ≤ i → x k = y k) : rollingStd sq p x i = rollingStd sq p y i := by
  unfold rollingStd
  rw [rollingVar_congr p x y i h]

theorem UpperBB_congr (sq : ℚ → ℚ) (f g : ℕ → Bar) (i : ℕ) (h : ∀ k, k ≤ i → f k = g k) :
    UpperBB sq f i = UpperBB sq g i := by
  have hc : ∀ k, k ≤ i → (f k).close = (g k).close := fun k hk => by rw [h k hk]
  unfold UpperBB
  rw [rollingMean_congr 20 _ _ i hc, rollingStd_congr sq 20 _ _ i hc]

theorem LowerBB_congr (sq : ℚ → ℚ) (f g : ℕ → Bar) (i : ℕ) (h : ∀ k, k ≤ i → f k = g k) :
    LowerBB sq f i = LowerBB sq g i := by
  have hc : ∀ k, k ≤ i → (f k).close = (g k).close := fun k hk => by rw [h k hk]
  unfold LowerBB
  rw [rollingMean_congr 20 _ _ i hc, rollingStd_congr sq 20 _ _ i hc]

theorem bbbsSig_congr (sq : ℚ → ℚ) (f g : ℕ → Bar) (n : ℕ)
    (h : ∀ k, k ≤ n - 2 → f k = g k) : bbbsSig sq f n = bbbsSig sq g n := by
  have h2 : f (n - 2) = g (n - 2) := h (n - 2) (le_refl _)
  unfold bbbsSig
  rw [HA_isRed, HA_isRed, HA_Open_congr f g (n - 2) h, HA_Close_congr f g (n - 2) h2,
    UpperBB_congr sq f g (n - 2) h, LowerBB_congr sq f g (n - 2) h,
    HA_Low_congr f g (n - 2) h, HA_High_congr f g (n - 2) h, h2]

theorem HA_open_rev_congr (f g : ℕ → Bar) (i : ℕ) (h : ∀ k, k ≤ i → f k = g k) :
    HA_open_rev f i = HA_open_rev g i := by
  unfold HA_open_rev
  split
  · rw [h 0 (Nat.zero_le i)]
  · rw [h (i - 1) (Nat.sub_le i 1)]

theorem HA_close_rev_congr (f g : ℕ → Bar) (i : ℕ) (h : f i = g i) :
    HA_close_rev f i = HA_close_rev g i := by
  unfold HA_close_rev
  exact HA_Close_congr f g i h

theorem HA_high_rev_congr (f g : ℕ → Bar) (i : ℕ) (h : ∀ k, k ≤ i → f k = g k) :
    HA_high_rev f i = HA_high_rev g i := by
  unfold HA_high_rev
  rw [HA_open_rev_congr f g i h, HA_close_rev_congr f g i (h i (le_refl i)), h i (le_refl i)]

theorem HA_low_rev_congr (f g : ℕ → Bar) (i : ℕ) (h : ∀ k, k ≤ i → f k = g k) :
    HA_low_rev f i = HA_low_rev g i := by
  unfold HA_low_rev
  rw [HA_open_rev_congr f g i h, HA_close_rev_congr f g i (h i (le_refl i)), h i (le_refl i)]

theorem tr_rev_congr (f g : ℕ → Bar) : ∀ i, (∀ k, k ≤ i → f k = g k) →
    tr_rev f i = tr_rev g i := by
  intro i h
  cases i with
  | zero =>
    show HA_high_rev f 0 - HA_low_rev f 0 = HA_high_rev g 0 - HA_low_rev g 0
    rw [HA_high_rev_congr f g 0 h, HA_low_rev_congr f g 0 h]
  | succ j =>
    have hj : ∀ k, k ≤ j → f k = g k := fun k hk => h k (le_trans hk (Nat.le_succ j))
    show max (HA_high_rev f (j + 1) - HA_low_rev f (j + 1))
        (max |HA_high_rev f (j + 1) - HA_close_rev f j| |HA_low_rev f (j + 1) - HA_close_rev f j|)
      = max (HA_high_rev g (j + 1) - HA_low_rev g (j + 1))
        (max |HA_high_rev g (j + 1) - HA_close_rev g j| |HA_low_rev g (j + 1) - HA_close_rev g j|)
    rw [HA_high_rev_congr f g (j + 1) h, HA_low_rev_congr f g (j + 1) h,
      HA_close_rev_congr f g j (hj j (le_refl j))]

theorem rma_congr (p : ℕ) (x y : ℕ → ℚ) : ∀ i, (∀ k, k ≤ i → x k = y k) →
    rma p x i = rma p y i := by
  intro i
  induction i with
  | zero =>
    intro h
    show x 0 = y 0
    exact h 0 (le_refl 0)
  | succ m ih =>
    intro h
    show (1 - 1 / (p : ℚ)) * rma p x m + (1 / (p : ℚ)) * x (m + 1)
      = (1 - 1 / (p : ℚ)) * rma p y m + (1 / (p : ℚ)) * y (m + 1)
    rw [ih (fun k hk => h k (le_trans hk (Nat.le_succ m))), h (m + 1) (le_refl _)]

theorem atr_rev_congr (f g : ℕ → Bar) (i : ℕ) (h : ∀ k, k ≤ i → f k = g k) :
    atr_rev f i = atr_rev g i := by
  unfold atr_rev
  exact rma_congr 9 _ _ i (fun k hk => tr_rev_congr f g k (fun j hj => h j (le_trans hj hk)))

theorem upperband_rev_congr (f g : ℕ → Bar) (i : ℕ) (h : ∀ k, k ≤ i → f k = g k) :
    upperband_rev f i = upperband_rev g i := by
  unfold upperband_rev
  rw [HA_high_rev_congr f g i h, HA_low_rev_congr f g i h, atr_rev_congr f g i h]

theorem lowerband_rev_congr (f g : ℕ → Bar) (i : ℕ) (h : ∀ k, k ≤ i → f k = g k) :
    lowerband_rev f i = lowerband_rev g i := by
  unfold lowerband_rev
  rw [HA_high_rev_congr f g i h, HA_low_rev_congr f g i h, atr_rev_congr f g i h]

theorem supertrend_rev_congr (f g : ℕ → Bar) : ∀ i, (∀ k, k ≤ i → f k = g k) →
    supertrend_rev f i = supertrend_rev g i := by
  intro i
  induction i with
  | zero => intro _; rfl
  | succ m ih =>
    intro h
    have hm : ∀ k, k ≤ m → f k = g k := fun k hk => h k (le_trans hk (Nat.le_succ m))
    show (if supertrend_rev f m then decide (¬ HA_high_rev f (m + 1) < lowerband_rev f (m + 1))
        else decide (upperband_rev f (m + 1) < HA_low_rev f (m + 1)))
      = (if supertrend_rev g m then decide (¬ HA_high_rev g (m + 1) < lowerband_rev g (m + 1))
        else decide (upperband_rev g (m + 1) < HA_low_rev g (m + 1)))
    rw [ih hm, HA_high_rev_congr f g (m + 1) h, lowerband_rev_congr f g (m + 1) h,
      upperband_rev_congr f g (m + 1) h, HA_low_rev_congr f g (m + 1) h]

theorem ST_value_rev_congr (f g : ℕ → Bar) (i : ℕ) (h : ∀ k, k ≤ i → f k = g k) :
    ST_value_rev f i = ST_value_rev g i := by
  cases i with
  | zero => rfl
  | succ m =>
    have hm : ∀ k, k ≤ m → f k = g k := fun k hk => h k (le_trans hk (Nat.le_succ m))
    show (if supertrend_rev f m then
        if HA_high_rev f (m + 1) < lowerband_rev f (m + 1) then upperband_rev f (m + 1)
        else lowerband_rev f (m + 1)
      else
        if upperband_rev f (m + 1) > HA_low_rev f (m + 1) then upperband_rev f (m + 1)
        else lowerband_rev f (m + 1))
      = (if supertrend_rev g m then
        if HA_high_rev g (m + 1) < lowerband_rev g (m + 1) then upperband_rev g (m + 1)
        else lowerband_rev g (m + 1)
      else
        if upperband_rev g (m + 1) > HA_low_rev g (m + 1) then upperband_rev g (m + 1)
        else lowerband_rev g (m + 1))
    rw [supertrend_rev_congr f g m hm, HA_high_rev_congr f g (m + 1) h,
      lowerband_rev_congr f g (m + 1) h, upperband_rev_congr f g (m + 1) h,
      HA_low_rev_congr f g (m + 1) h]

theorem BB_upper_rev_congr (sq : ℚ → ℚ) (f g : ℕ → Bar) (i : ℕ)
    (h : ∀ k, k ≤ i → f k = g k) : BB_upper_rev sq f i = BB_upper_rev sq g i := by
  have hc : ∀ k, k ≤ i → HA_close_rev f k = HA_close_rev g k :=
    fun k hk => HA_close_rev_congr f g k (h k hk)
  unfold BB_upper_rev BB_mid_rev
  rw [rollingMean_congr 200 _ _ i hc, rollingStd_congr sq 200 _ _ i hc]

theorem BB_lower_rev_congr (sq : ℚ → ℚ) (f g : ℕ → Bar) (i : ℕ)
    (h : ∀ k, k ≤ i → f k = g k) : BB_lower_rev sq f i = BB_lower_rev sq g i := by
  have hc : ∀ k, k ≤ i → HA_close_rev f k = HA_close_rev g k :=
    fun k hk => HA_close_rev_congr f g k (h k hk)
  unfold BB_lower_rev BB_mid_rev
  rw [rollingMean_congr 200 _ _ i hc, rollingStd_congr sq 200 _ _ i hc]

theorem revSig_congr (sq : ℚ → ℚ) (f g : ℕ → Bar) (n : ℕ)
    (h : ∀ k, k ≤ n - 2 → f k = g k) : revSig sq f n = revSig sq g n := by
  unfold revSig
  rw [supertrend_rev_congr f g (n - 2) h, HA_close_rev_congr f g (n - 2) (h _ (le_refl _)),
    BB_upper_rev_congr sq f g (n - 2) h, BB_lower_rev_congr sq f g (n - 2) h,
    HA_low_rev_congr f g (n - 2) h, HA_high_rev_congr f g (n - 2) h,
    ST_value_rev_congr f g (n - 2) h]

/-- C2 (amended): live-bar exclusion holds for BollingerBandBuySell's
`process` (both sides) and for ReversalBuySell's
`fetch_and_prepare`/`process_pair`: for any two fetched series of the same
length that differ only in the final (still-open) bar, the per-pair
decision — watchlist update and alert — is identical, for every
square-root realization and every starting watch state.  (RSI_Buy_Sell's
`fetch_coin_data` reads the RSI of the final bar itself and violates the
claim; see the counterexample.) -/
theorem live_bar_exclusion :
    ∀ (sq : ℚ → ℚ) (f g : ℕ → Bar) (n : ℕ) (wB wS : Option ℚ) (s : Bool × Bool),
    (∀ k, k + 1 < n → f k = g k) →
    bbbsProcessBuy sq f n wB = bbbsProcessBuy sq g n wB
    ∧ bbbsProcessSell sq f n wS = bbbsProcessSell sq g n wS
    ∧ revProcess sq f n s = revProcess sq g n s := by
  intro sq f g n wB wS s h
  refine ⟨?_, ?_, ?_⟩
  · unfold bbbsProcessBuy
    by_cases hn : n < 50
    · rw [if_pos hn, if_pos hn]
    · rw [if_neg hn, if_neg hn, bbbsSig_congr sq f g n (fun k hk => h k (by omega))]
  · unfold bbbsProcessSell
    by_cases hn : n < 50
    · rw [if_pos hn, if_pos hn]
    · rw [if_neg hn, if_neg hn, bbbsSig_congr sq f g n (fun k hk => h k (by omega))]
  · unfold revProcess
    by_cases hn : n < 210
    · rw [if_pos hn, if_pos hn]
    · rw [if_neg hn, if_neg hn, revSig_congr sq f g n (fun k hk => h k (by omega))]

/-- A constant 250-bar series. -/
def barsLiveF : ℕ → Bar := fun _ => ⟨1, 2, 0, 1⟩

/-- The same series with a different final (index 249) bar. -/
def barsLiveG : ℕ → Bar := fun k => if k = 249 then ⟨1, 3, 0, 2⟩ else ⟨1, 2, 0, 1⟩

/-- `barsLiveF` and `barsLiveG` agree on every bar before the final one
(index 249). -/
theorem barsLive_agree_before_final : ∀ k, k + 1 < 250 → barsLiveF k = barsLiveG k := by
  intro k hk
  simp only [barsLiveF, barsLiveG]
  rw [if_neg (by omega)]

theorem live_bar_exclusion_witness :
    bbbsProcessBuy id barsLiveF 250 none = bbbsProcessBuy id barsLiveG 250 none
    ∧ bbbsProcessSell id barsLiveF 250 none = bbbsProcessSell id barsLiveG 250 none
    ∧ revProcess id barsLiveF 250 (false, false) = revProcess id barsLiveG 250 (false, false) :=
  live_bar_exclusion id barsLiveF barsLiveG 250 none none (false, false)
    barsLive_agree_before_final

/-- Strictly rising closes 1, 2, 3, ... -/
def closesLiveA : ℕ → ℚ := fun k => ((k : ℚ) + 1)

/-- The same closes with the final (22nd) value replaced by a crash to 1. -/
def closesLiveB : ℕ → ℚ := fun k => if k = 21 then 1 else ((k : ℚ) + 1)

/-- `closesLiveA` and `closesLiveB` agree on every bar before the final
one (index 21): by construction they differ only in the live bar. -/
theorem closesLive_agree_before_final : ∀ k, k + 1 < 22 → closesLiveA k = closesLiveB k := by
  intro k hk
  simp only [closesLiveA, closesLiveB]
  rw [if_neg (by omega)]

/-- C2 counterexample: two 22-bar close series that agree on every bar
except the final one (`closesLive_agree_before_final`) make RSI_Buy_Sell's
`fetch_coin_data` produce different decisions from the same neutral state
(buy signal versus no signal): the scanner reads the live bar. -/
theorem rsi_scan_depends_on_live_bar :
    rsiScanStep closesLiveA 22 CoinState.neutral = (true, false, CoinState.overbought)
    ∧ rsiScanStep closesLiveB 22 CoinState.neutral = (false, false, CoinState.neutral)
    ∧ rsiScanStep closesLiveA 22 CoinState.neutral ≠ rsiScanStep closesLiveB 22 CoinState.neutral := by
  have hA : rsiScanStep closesLiveA 22 CoinState.neutral = (true, false, CoinState.overbought) := by
    norm_num [rsiScanStep, calculate_rsi, avgGain, avgLoss, gainSeq, lossSeq, deltaSeq,
      closesLiveA, FVal.fdiv, FVal.addQ, FVal.divQ, FVal.subQ, FVal.gtQ, FVal.ltQ]
    all_goals decide
  have hB : rsiScanStep closesLiveB 22 CoinState.neutral = (false, false, CoinState.neutral) := by
    norm_num [rsiScanStep, calculate_rsi, avgGain, avgLoss, gainSeq, lossSeq, deltaSeq,
      closesLiveB, FVal.fdiv, FVal.addQ, FVal.divQ, FVal.subQ, FVal.gtQ, FVal.ltQ]
  refine ⟨hA, hB, ?_⟩
  rw [hA, hB]
  simp
